import Mathlib

set_option maxRecDepth 100000

/-!
Shallow embedding of the GO-Blockchain two-tier chain (CP/Hos lower tiers,
OTT/Gov upper tiers) and proofs about its Merkle, consensus, anchoring and
difficulty-adjustment code.  Bytes are `List Nat` (each entry `< 256`),
machine integers are `Int`/`Nat` with explicit wrapping where it matters,
and Go functions become pure Lean functions; handlers that mutate global
state become explicit state-passing functions.
-/

/-- Fuel-driven worker for `chunkList`; the fuel is an upper bound on the
number of chunks, so recursion is structural and kernel-reducible. -/
def chunkListGo (n : Nat) : Nat → List Nat → List (List Nat)
  | _, [] => []
  | 0, _ => []
  | fuel + 1, l => l.take n :: chunkListGo n fuel (l.drop n)

/-- Split a list into chunks of `n` elements (the last chunk may be short). -/
def chunkList (n : Nat) (l : List Nat) : List (List Nat) :=
  chunkListGo n l.length l

namespace SHA256

/-- 2^32, the word modulus of SHA-256. -/
def M32 : Nat := 4294967296

/-- Round constants (fractional parts of cube roots of the first 64 primes). -/
def Kconst : List Nat :=
  [1116352408, 1899447441, 3049323471, 3921009573, 961987163, 1508970993,
   2453635748, 2870763221, 3624381080, 310598401, 607225278, 1426881987,
   1925078388, 2162078206, 2614888103, 3248222580, 3835390401, 4022224774,
   264347078, 604807628, 770255983, 1249150122, 1555081692, 1996064986,
   2554220882, 2821834349, 2952996808, 3210313671, 3336571891, 3584528711,
   113926993, 338241895, 666307205, 773529912, 1294757372, 1396182291,
   1695183700, 1986661051, 2177026350, 2456956037, 2730485921, 2820302411,
   3259730800, 3345764771, 3516065817, 3600352804, 4094571909, 275423344,
   430227734, 506948616, 659060556, 883997877, 958139571, 1322822218,
   1537002063, 1747873779, 1955562222, 2024104815, 2227730452, 2361852424,
   2428436474, 2756734187, 3204031479, 3329325298]

/-- Initial hash state (fractional parts of square roots of the first 8 primes). -/
def Hinit : List Nat :=
  [1779033703, 3144134277, 1013904242, 2773480762, 1359893119, 2600822924, 528734635, 1541459225]

/-- 32-bit rotate right. -/
def rotr (x n : Nat) : Nat := ((x >>> n) ||| (x <<< (32 - n))) % M32

/-- Big-endian 32-bit word from four bytes. -/
def be32 (a b c d : Nat) : Nat := ((a * 256 + b) * 256 + c) * 256 + d

/-- Parse a 64-byte block into its 16 big-endian words. -/
def toWords : List Nat → List Nat
  | a :: b :: c :: d :: rest => be32 a b c d :: toWords rest
  | _ => []

/-- One message-schedule extension step on the reversed word list. -/
def scheduleStep (rw : List Nat) : List Nat :=
  let w2 := rw.getD 1 0
  let w7 := rw.getD 6 0
  let w15 := rw.getD 14 0
  let w16 := rw.getD 15 0
  let s0 := (rotr w15 7) ^^^ (rotr w15 18) ^^^ (w15 >>> 3)
  let s1 := (rotr w2 17) ^^^ (rotr w2 19) ^^^ (w2 >>> 10)
  ((w16 + s0 + w7 + s1) % M32) :: rw

/-- Extend 16 words to the 64-word message schedule. -/
def msgSchedule (ws : List Nat) : List Nat :=
  ((List.range 48).foldl (fun rw _ => scheduleStep rw) ws.reverse).reverse

/-- The eight working registers of the compression function. -/
structure Regs where
  a : Nat
  b : Nat
  c : Nat
  d : Nat
  e : Nat
  f : Nat
  g : Nat
  h : Nat

/-- One compression round; `kw` is the pair of round constant and schedule word. -/
def roundStep (st : Regs) (kw : Nat × Nat) : Regs :=
  let S1 := (rotr st.e 6) ^^^ (rotr st.e 11) ^^^ (rotr st.e 25)
  let ch := (st.e &&& st.f) ^^^ ((st.e ^^^ (M32 - 1)) &&& st.g)
  let t1 := (st.h + S1 + ch + kw.1 + kw.2) % M32
  let S0 := (rotr st.a 2) ^^^ (rotr st.a 13) ^^^ (rotr st.a 22)
  let maj := (st.a &&& st.b) ^^^ (st.a &&& st.c) ^^^ (st.b &&& st.c)
  let t2 := (S0 + maj) % M32
  ⟨(t1 + t2) % M32, st.a, st.b, st.c, (st.d + t1) % M32, st.e, st.f, st.g⟩

/-- Compress one 64-byte block into the running hash state. -/
def compress (hs : List Nat) (blk : List Nat) : List Nat :=
  let ws := msgSchedule (toWords blk)
  let st0 : Regs :=
    ⟨hs.getD 0 0, hs.getD 1 0, hs.getD 2 0, hs.getD 3 0,
     hs.getD 4 0, hs.getD 5 0, hs.getD 6 0, hs.getD 7 0⟩
  let st := (List.zip Kconst ws).foldl roundStep st0
  [(hs.getD 0 0 + st.a) % M32, (hs.getD 1 0 + st.b) % M32,
   (hs.getD 2 0 + st.c) % M32, (hs.getD 3 0 + st.d) % M32,
   (hs.getD 4 0 + st.e) % M32, (hs.getD 5 0 + st.f) % M32,
   (hs.getD 6 0 + st.g) % M32, (hs.getD 7 0 + st.h) % M32]

/-- Merkle–Damgård padding: 0x80, zeros to 56 mod 64, then the 64-bit bit length. -/
def padBytes (msg : List Nat) : List Nat :=
  let len := msg.length
  let zc := (119 - (len % 64)) % 64
  let ml := len * 8
  msg ++ [128] ++ List.replicate zc 0 ++
    [(ml >>> 56) % 256, (ml >>> 48) % 256, (ml >>> 40) % 256, (ml >>> 32) % 256,
     (ml >>> 24) % 256, (ml >>> 16) % 256, (ml >>> 8) % 256, ml % 256]

/-- The final eight 32-bit words of the SHA-256 digest. -/
def sha256Words (msg : List Nat) : List Nat :=
  (chunkList 64 (padBytes msg)).foldl compress Hinit

/-- SHA-256 digest as 32 bytes. -/
def sha256 (msg : List Nat) : List Nat :=
  (sha256Words msg).foldr
    (fun w acc => ((w >>> 24) % 256) :: ((w >>> 16) % 256) :: ((w >>> 8) % 256) :: (w % 256) :: acc)
    []

end SHA256

/-- Lower-case hex digit for a value `< 16`. -/
def hexDigitChar (n : Nat) : Char :=
  if n < 10 then Char.ofNat (48 + n) else Char.ofNat (87 + n)

/-- Encode bytes as a lower-case hex string (Go `hex.EncodeToString`). -/
def hexEncode (bs : List Nat) : String :=
  String.mk (bs.foldr (fun b acc => hexDigitChar (b / 16) :: hexDigitChar (b % 16) :: acc) [])

/-- Value of a hex digit, upper or lower case. -/
def hexDigitVal (c : Char) : Option Nat :=
  if 48 ≤ c.toNat ∧ c.toNat ≤ 57 then some (c.toNat - 48)
  else if 97 ≤ c.toNat ∧ c.toNat ≤ 102 then some (c.toNat - 87)
  else if 65 ≤ c.toNat ∧ c.toNat ≤ 70 then some (c.toNat - 55)
  else none

/-- Decode hex two characters at a time, stopping at the first invalid pair;
Go's `hex.DecodeString` returns the decoded prefix alongside the error, and
every caller in this repository discards the error. -/
def hexDecodeAux : List Char → List Nat
  | a :: b :: rest =>
    match hexDigitVal a, hexDigitVal b with
    | some x, some y => (16 * x + y) :: hexDecodeAux rest
    | _, _ => []
  | _ => []

/-- Bytes of a hex string as Go callers observe them (error discarded). -/
def hexDecode (s : String) : List Nat := hexDecodeAux s.data

/-- UTF-8 encoding of one scalar value. -/
def utf8Char (n : Nat) : List Nat :=
  if n < 128 then [n]
  else if n < 2048 then [192 + n / 64, 128 + n % 64]
  else if n < 65536 then [224 + n / 4096, 128 + (n / 64) % 64, 128 + n % 64]
  else [240 + n / 262144, 128 + (n / 4096) % 64, 128 + (n / 64) % 64, 128 + n % 64]

/-- UTF-8 bytes of a string, Go's `[]byte(s)`. -/
def strBytes (s : String) : List Nat := s.data.foldr (fun c acc => utf8Char c.toNat ++ acc) []

/-- `sha256Hex` from `crypto_merkle.go`: SHA-256 digest rendered as hex. -/
def sha256Hex (data : List Nat) : String := hexEncode (SHA256.sha256 data)

namespace Ott

/-!
`src/ott/crypto_merkle.go` (identical to `src/unnamed/part_002`, the CP-side
copy).  Levels are lists of raw byte strings; proof entries are
`(sibling_hex, "L" | "R")` pairs.
-/

/-- One combining pass of `merkleRootHex`: pair adjacent nodes, hashing the
lone last node with itself. -/
def combineLevel : List (List Nat) → List (List Nat)
  | x :: y :: rest => SHA256.sha256 (x ++ y) :: combineLevel rest
  | [x] => [SHA256.sha256 (x ++ x)]
  | [] => []

/-- The `for len(level) > 1` loop of `merkleRootHex`, fuel-driven. -/
def rootGo : Nat → List (List Nat) → List (List Nat)
  | 0, level => level
  | fuel + 1, level =>
    if level.length > 1 then rootGo fuel (combineLevel level) else level

/-- `merkleRootHex` from `crypto_merkle.go`: empty input yields `""`. -/
def merkleRootHex (leaves : List String) : String :=
  if leaves = [] then ""
  else
    let level := leaves.map hexDecode
    hexEncode ((rootGo level.length level).headD [])

/-- `verifyMerkleProof(leafHex, rootHex, proof)` from `crypto_merkle.go`. -/
def verifyMerkleProof (leafHex rootHex : String) (proof : List (String × String)) : Bool :=
  let final := proof.foldl
    (fun h p =>
      let sib := hexDecode p.1
      if p.2 = "L" then SHA256.sha256 (sib ++ h) else SHA256.sha256 (h ++ sib))
    (hexDecode leafHex)
  hexEncode final == rootHex

/-- The `for len(level) > 1` loop of `merkleProof`: compute the next level,
then record the sibling of the current index when it exists (the odd last
node records nothing), halve the index and ascend. -/
def proofGo : Nat → List (List Nat) → Nat → List (String × String) → List (String × String)
  | 0, _, _, proof => proof
  | fuel + 1, level, current, proof =>
    if level.length > 1 then
      let next := combineLevel level
      let siblingIdx := current ^^^ 1
      let proof :=
        if siblingIdx < level.length then
          let sibHex := hexEncode (level.getD siblingIdx [])
          if current % 2 = 0 then proof ++ [(sibHex, "R")] else proof ++ [(sibHex, "L")]
        else proof
      proofGo fuel next (current / 2) proof
    else proof

/-- `merkleProof(leafHashes, idx)` from `crypto_merkle.go`; out-of-range
indices return `nil` (the empty proof). -/
def merkleProof (leafHashes : List String) (idx : Int) : List (String × String) :=
  if idx < 0 ∨ (leafHashes.length : Int) ≤ idx then []
  else
    let level := leafHashes.map hexDecode
    proofGo level.length level idx.toNat []

end Ott

namespace Hos

/-!
`src/unnamed/part_014`, the Merkle implementation shared by the Hos lower
tier and the Gov upper tier.  Levels are lists of hex strings; proof entries
are `("L" | "R", sibling_hex)` pairs, and an odd level is padded by
duplicating its last element before the sibling is selected.
-/

/-- `pairHash` from `part_014`: decode both hex nodes, concatenate, SHA-256. -/
def pairHash (left right : String) : String :=
  sha256Hex (hexDecode left ++ hexDecode right)

/-- Pair an (even-length) level into its parents. -/
def combineLevel : List String → List String
  | x :: y :: rest => pairHash x y :: combineLevel rest
  | _ => []

/-- Duplicate the last element when the level has odd length. -/
def padLevel (level : List String) : List String :=
  if level.length % 2 = 1 then level ++ [level.getLast?.getD ""] else level

/-- The level loop of `merkleRootHex`, fuel-driven. -/
def rootGo : Nat → List String → List String
  | 0, level => level
  | fuel + 1, level =>
    if level.length > 1 then rootGo fuel (combineLevel (padLevel level)) else level

/-- `merkleRootHex` from `part_014`: empty input yields `sha256Hex("")`,
a single leaf is its own root. -/
def merkleRootHex (leaves : List String) : String :=
  if leaves.length = 0 then sha256Hex []
  else if leaves.length = 1 then leaves.headD ""
  else (rootGo leaves.length leaves).headD ""

/-- The level loop of `merkleProof`: pad, record the sibling (which always
exists after padding), descend. -/
def proofGo : Nat → List String → Nat → List (String × String) → List (String × String)
  | 0, _, _, proof => proof
  | fuel + 1, level, cur, proof =>
    if level.length > 1 then
      let padded := padLevel level
      let proof :=
        if cur % 2 = 0 then proof ++ [("R", padded.getD (cur + 1) "")]
        else proof ++ [("L", padded.getD (cur - 1) "")]
      proofGo fuel (combineLevel padded) (cur / 2) proof
    else proof

/-- `merkleProof(leaves, index)` from `part_014`. -/
def merkleProof (leaves : List String) (index : Int) : List (String × String) :=
  if index < 0 ∨ (leaves.length : Int) ≤ index then []
  else proofGo leaves.length leaves index.toNat []

/-- `verifyMerkleProof(leaf, proof, root)` from `part_014`. -/
def verifyMerkleProof (leaf : String) (proof : List (String × String)) (root : String) : Bool :=
  let computed := proof.foldl
    (fun computed p => if p.1 = "L" then pairHash p.2 computed else pairHash computed p.2)
    leaf
  computed == root

end Hos

namespace PB

/-!
Quorum computations of the PoW-BFT Hos variant:
`quorumSize` (`src/PoW-BFT/hos/chain.go`) and `checkQuorum`
(`src/PoW-BFT/hos/bft.go`; the same expression appears in
`src/unnamed/part_014`).  Go's `/` on non-negative ints is `Nat` division,
and `2*(n-1)/3` parses as `(2*(n-1))/3`.
-/

/-- `quorumSize()`: `n = len(peers)+1`, `f = (n-1)/3`, result `2f+1`. -/
def quorumSize (peers : List String) : Nat :=
  let n := peers.length + 1
  let f := (n - 1) / 3
  2 * f + 1

/-- The vote threshold inside `checkQuorum`: `2*(n-1)/3 + 1` with Go's
left-associated division, i.e. `(2*(n-1))/3 + 1`. -/
def checkQuorumThreshold (peers : List String) : Nat :=
  let n := peers.length + 1
  (2 * (n - 1)) / 3 + 1

/-- `checkQuorum(c)`: the collected signature count reaches the threshold. -/
def checkQuorum (peers : List String) (signatures : List String) : Bool :=
  signatures.length ≥ checkQuorumThreshold peers

end PB

/-- JSON string escaping as performed by Go's `encoding/json` with
`SetEscapeHTML(false)`: quote, backslash, the short escapes for newline,
carriage return and tab, `\u00XX` for other control characters, and ` `
or ` ` for the Unicode line separators. -/
def jsonEscapeChar (c : Char) : List Char :=
  if c = '"' then ['\\', '"']
  else if c = '\\' then ['\\', '\\']
  else if c = '\n' then ['\\', 'n']
  else if c = '\r' then ['\\', 'r']
  else if c = '\t' then ['\\', 't']
  else if c.toNat < 32 then
    ['\\', 'u', '0', '0', hexDigitChar (c.toNat / 16), hexDigitChar (c.toNat % 16)]
  else if c.toNat = 8232 then ['\\', 'u', '2', '0', '2', '8']
  else if c.toNat = 8233 then ['\\', 'u', '2', '0', '2', '9']
  else [c]

/-- A JSON string literal for `s`. -/
def jsonQuote (s : String) : String :=
  "\"" ++ String.mk (s.data.foldr (fun c acc => jsonEscapeChar c ++ acc) []) ++ "\""

namespace Gov

/-!
The Gov upper tier of the `PoW-BFT` variant: data model from
`src/BFT/gov/data_models.go`, block and hash from `src/unnamed/part_014`,
validator from `src/BFT/gov/p2p.go`.
-/

/-- `ContractData` from `data_models.go`; the generic `meta` map is modelled
as an association list. -/
structure ContractData where
  hosID : String
  expiryTimestamp : String
  regions : List String
  allowedClinicIDs : List String
  meta : List (String × String)
deriving DecidableEq

/-- `AnchorRecord` from `data_models.go`. -/
structure AnchorRecord where
  hosID : String
  contractSnapshot : ContractData
  lowerRoot : String
  accessCatalog : List String
  anchorTimestamp : String
deriving DecidableEq

/-- `UpperBlock` from `part_014`; the float32 `Elapsed` is idealized as a
rational. -/
structure UpperBlock where
  index : Int
  govID : String
  prevHash : String
  timestamp : String
  records : List AnchorRecord
  merkleRoot : String
  proposer : String
  signatures : List String
  blockHash : String
  elapsed : Rat
deriving DecidableEq

/-- `computeUpperMerkleRoot` from `part_014`: empty record list yields `""`,
otherwise the Hos-variant Merkle root of the anchors' lower roots. -/
def computeUpperMerkleRoot (records : List AnchorRecord) : String :=
  if records = [] then ""
  else Hos.merkleRootHex (records.map (fun rec => rec.lowerRoot))

/-- `jsonCanonical` applied to the fixed header struct of
`UpperBlock.computeHash`: the re-marshalled map is emitted with its keys in
sorted order (`gov_id`, `index`, `merkle_root`, `prev_hash`, `proposer`,
`timestamp`), compactly and without HTML escaping; the `int` survives the
`float64` round-trip exactly. -/
def headerCanonicalJson (b : UpperBlock) : String :=
  "\x7b\"gov_id\":" ++ jsonQuote b.govID ++
  ",\"index\":" ++ toString b.index ++
  ",\"merkle_root\":" ++ jsonQuote b.merkleRoot ++
  ",\"prev_hash\":" ++ jsonQuote b.prevHash ++
  ",\"proposer\":" ++ jsonQuote b.proposer ++
  ",\"timestamp\":" ++ jsonQuote b.timestamp ++ "\x7d"

/-- `UpperBlock.computeHash` from `part_014`: SHA-256 hex of the canonical
header JSON. -/
def computeHash (b : UpperBlock) : String :=
  sha256Hex (strBytes (headerCanonicalJson b))

/-- `validateUpperBlock(newBlk, prevBlk)` from `src/BFT/gov/p2p.go`; `none`
means the block passed.  Step 5 is translated exactly as written in the
source: it copies `newBlk.BlockHash` into a local and compares the local with
the field it was copied from. -/
def validateUpperBlock (newBlk prevBlk : UpperBlock) : Option String :=
  if prevBlk.index + 1 ≠ newBlk.index then some "index not consecutive"
  else if prevBlk.blockHash ≠ newBlk.prevHash then some "prev_hash mismatch"
  else if prevBlk.govID ≠ newBlk.govID then some "Gov_id mismatch"
  else if computeUpperMerkleRoot newBlk.records ≠ newBlk.merkleRoot then
    some "merkle_root mismatch"
  else
    let blockHash := newBlk.blockHash
    if blockHash ≠ newBlk.blockHash then some "block_hash mismatch"
    else none

/-- The genesis-shaped previous block used to exercise the validator. -/
def prevDemoBlock : UpperBlock :=
  ⟨0, "g", "", "t0", [], "", "SYSTEM", [], "h0", 0⟩

/-- A successor block whose `block_hash` field is garbage (`"deadbeef"`),
with every other header check satisfied. -/
def tamperedDemoBlock : UpperBlock :=
  ⟨1, "g", "h0", "t1", [], "", "p", [], "deadbeef", 0⟩

end Gov

namespace Cp

/-!
Difficulty adjustment of the CP PoW variant, `adjustDifficulty(idx, elapsed)`
in `src/cp/pow.go`.  The float32/float64 arithmetic is idealized over the
rationals; the elapsed times recorded in the ledger are presented as an
association list `index → elapsed` (a failed block fetch leaves the slot 0,
like the source).
-/

/-- `DiffStandardTime` (20 seconds) from `src/cp/chain.go`. -/
def DiffStandardTime : Rat := 20

/-- `adjustDifficulty(idx, elapsed)` from `src/cp/pow.go`: average the elapsed
times of the last three blocks (slots that cannot be fetched stay 0, and for
`idx <= 2` only the newest slot is filled), compare `avg / DiffStandardTime`
with 0.85 and 1.25, and return the new `GlobalDifficulty`.  The increment
branch un-increments when the result equals exactly 8. -/
def adjustDifficulty (elapsedByIndex : List (Int × Rat)) (idx : Int) (elapsed : Rat)
    (globalDifficulty : Int) : Int :=
  let e1 := if idx > 2 then ((elapsedByIndex.lookup (idx - 1)).getD 0) else 0
  let e0 := if idx > 2 then ((elapsedByIndex.lookup (idx - 2)).getD 0) else 0
  let avg := (e0 + e1 + elapsed) / 3
  let ratio := avg / DiffStandardTime
  if ratio < 85 / 100 then
    let d := globalDifficulty + 1
    if d = 8 then d - 1 else d
  else if ratio > 125 / 100 then
    let d := globalDifficulty - 1
    if d < 1 then 1 else d
  else globalDifficulty

end Cp

namespace P6

/-!
Difficulty adjustment of the second CP PoW variant,
`adjustDifficulty(start, end)` in `src/unnamed/part_006`: a single elapsed
duration, threshold 0.75, no ceiling on the increment.  The variant's
`TargetBlockTime` global is defined in a file missing from the corpus, so the
target is passed as an argument.
-/

/-- `adjustDifficulty(start, end)` from `part_006`, with `elapsed = end - start`. -/
def adjustDifficulty (elapsed target : Rat) (globalDifficulty : Int) : Int :=
  if elapsed ≤ 0 then globalDifficulty
  else
    let ratio := elapsed / target
    if ratio < 75 / 100 then globalDifficulty + 1
    else if ratio > 125 / 100 then
      let d := globalDifficulty - 1
      if d < 1 then 1 else d
    else globalDifficulty

end P6

/-- Modelled from the spec: the in-memory anchor cache entry `{root, ts}`
(§4.2 keyspace `anchor_<provider_id>`); the Go struct definition file is
missing from the corpus, and both use sites (`anchorMap[id] = AnchorInfo{Root:
req.Root, Ts: req.Ts}` in `ott/anchor.go` and `PoW-BFT/hos/bft.go`) fix its
two string fields. -/
structure AnchorInfo where
  root : String
  ts : String
deriving DecidableEq

namespace PB

/-- `ClinicRecord` from `src/BFT/gov/data_models.go`; the two generic
`map[string]interface{}` metadata maps carry opaque payload in every claim
proved here and are modelled as string association lists. -/
structure ClinicRecord where
  clinicID : String
  info : List (String × String)
  patientID : String
  prescCode : String
  clinicHis : List (String × String)
  timestamp : String
deriving DecidableEq

/-- `SearchResponse` from the query section of `src/PoW-BFT/hos/bft.go`. -/
structure SearchResponse where
  record : ClinicRecord
  blockRoot : String
  latestRoot : String
  leaf : String
  proof : List (String × String)
deriving DecidableEq

/-- Result of the Gov-side query verification: the Go function's
`([]SearchResponse, error)` pair, plus the run-time panic its mismatch
logging can raise. -/
inductive QueryOutcome where
  | ok (verified : List SearchResponse)
  | err (msg : String)
  | panicked
deriving DecidableEq

/-- The item loop of `verifyHosResults`: a mismatching `latest_root` is
logged — and the log line slices both `it.LatestRoot[:10]` and
`anchorRoot[:10]`, panicking when either is shorter than 10 bytes — then
skipped; a matching item is kept exactly when its Merkle proof verifies its
leaf against its `block_root`. -/
def verifyHosResultsGo (anchorRoot : String) :
    List SearchResponse → List SearchResponse → QueryOutcome
  | [], verified => .ok verified
  | it :: rest, verified =>
    if it.latestRoot ≠ anchorRoot then
      if 10 ≤ it.latestRoot.utf8ByteSize ∧ 10 ≤ anchorRoot.utf8ByteSize then
        verifyHosResultsGo anchorRoot rest verified
      else .panicked
    else if Hos.verifyMerkleProof it.leaf it.proof it.blockRoot then
      verifyHosResultsGo anchorRoot rest (verified ++ [it])
    else verifyHosResultsGo anchorRoot rest verified

/-- `verifyHosResults(hosID, items)` from `src/PoW-BFT/hos/bft.go`: look up
the anchored root for the provider (error when absent) and filter the items. -/
def verifyHosResults (anchorMap : List (String × AnchorInfo)) (hosID : String)
    (items : List SearchResponse) : QueryOutcome :=
  match anchorMap.lookup hosID with
  | none => .err ("no anchor for hos_id=" ++ hosID)
  | some anch => verifyHosResultsGo anch.root items []

/-- The Boolean the claim says selects the returned items. -/
def hosItemVerified (anchorRoot : String) (it : SearchResponse) : Bool :=
  (it.latestRoot == anchorRoot) && Hos.verifyMerkleProof it.leaf it.proof it.blockRoot

end PB

namespace Ott

/-- `ContentRecord` from `src/cp/main.go`; as with `ClinicRecord`, the
generic metadata maps are opaque payload here. -/
structure ContentRecord where
  contentID : String
  info : List (String × String)
  fingerprint : String
  storageAddr : String
  drm : List (String × String)
  timestamp : String
deriving DecidableEq

/-- `SearchResponse` from `src/ott/anchor.go`: one `root` field serves as
both the anchored latest root and the Merkle block root. -/
structure SearchResponse where
  record : ContentRecord
  root : String
  leaf : String
  proof : List (String × String)
deriving DecidableEq

/-- The item loop of `verifyCpResults`: skip on root mismatch (no logging of
sliced roots in this variant), keep exactly the items whose proof verifies. -/
def verifyCpResultsGo (anchorRoot : String) :
    List SearchResponse → List SearchResponse → List SearchResponse
  | [], verified => verified
  | it :: rest, verified =>
    if it.root ≠ anchorRoot then verifyCpResultsGo anchorRoot rest verified
    else if Ott.verifyMerkleProof it.leaf it.root it.proof then
      verifyCpResultsGo anchorRoot rest (verified ++ [it])
    else verifyCpResultsGo anchorRoot rest verified

/-- `verifyCpResults(cpID, items)` from `src/ott/anchor.go`. -/
def verifyCpResults (anchorMap : List (String × AnchorInfo)) (cpID : String)
    (items : List SearchResponse) : Except String (List SearchResponse) :=
  match anchorMap.lookup cpID with
  | none => .error ("no anchor for cp_id=" ++ cpID)
  | some anch => .ok (verifyCpResultsGo anch.root items [])

/-- The Boolean the claim says selects the returned items (both root roles
are played by the single `root` field in this variant). -/
def cpItemVerified (anchorRoot : String) (it : SearchResponse) : Bool :=
  (it.root == anchorRoot) && Ott.verifyMerkleProof it.leaf it.root it.proof

end Ott

/-- A sample clinic record (opaque payload for the query-path claims). -/
def demoClinicRecord : PB.ClinicRecord := ⟨"c1", [], "p1", "rx", [], "t"⟩

/-- An item whose `latest_root` is empty, hence shorter than the 10 bytes the
mismatch log line slices. -/
def shortRootItem : PB.SearchResponse := ⟨demoClinicRecord, "b", "", "", []⟩

/-- Anchor entry used by the C5 witness (a 10-byte root). -/
def C5demoAnchor : AnchorInfo := ⟨"0123456789", "ts"⟩

/-- A matching item with a trivially verifying (empty) Merkle proof. -/
def C5demoItem : PB.SearchResponse := ⟨demoClinicRecord, "aa", "0123456789", "aa", []⟩

/-- OTT-side anchor and item for the C5 witness. -/
def C5demoCpAnchor : AnchorInfo := ⟨"bb", "ts"⟩

/-- OTT-side item whose root matches the anchor and whose empty proof
verifies. -/
def C5demoCpItem : Ott.SearchResponse := ⟨⟨"c", [], "f", "s", [], "t"⟩, "bb", "bb", []⟩

namespace Ott

/-- `ContractData` from `src/cp/main.go` (the OTT program shares it); the
`meta` map is an association list. -/
structure ContractData where
  cpID : String
  expiryTimestamp : String
  regions : List String
  allowedContentIDs : List String
  meta : List (String × String)
deriving DecidableEq

/-- The zero value `ContractData{}` used for the empty contract snapshot. -/
def emptyContract : ContractData := ⟨"", "", [], [], []⟩

/-- `AnchorRecord` as the OTT `addAnchor` constructs it; its struct
definition file is missing from the corpus, but the construction site in
`src/ott/anchor.go` (and the Gov twin in `src/ott/pow.go`) fixes the five
fields. -/
structure AnchorRecord where
  cpID : String
  contractSnapshot : ContractData
  lowerRoot : String
  accessCatalog : List String
  anchorTimestamp : String
deriving DecidableEq

/-- The decoded `/addAnchor` request body. -/
structure AnchorRequest where
  cpID : String
  cpBoot : String
  root : String
  ts : String
  sig : String
deriving DecidableEq

/-- The OTT-node state the `addAnchor` handler can touch: the upper pending
pool, the durable `anchor_<cp_id>` store, the in-memory anchor map and the
provider-boot routing map. -/
structure AnchorState where
  pending : List AnchorRecord
  anchorStore : List (String × AnchorInfo)
  anchorMap : List (String × AnchorInfo)
  cpBootMap : List (String × String)
deriving DecidableEq

/-- Insert-or-replace in an association list (Go map write). -/
def assocInsert {α : Type} (m : List (String × α)) (k : String) (v : α) :
    List (String × α) :=
  (k, v) :: m.filter (fun p => p.1 ≠ k)

/-- Modelled from the spec: `saveAnchorToDB(id, root, ts)` persists the
`{root, ts}` pair under the `anchor_<provider_id>` key (§4.2); its definition
file is missing from the corpus. -/
def saveAnchorToDB (store : List (String × AnchorInfo)) (cpID root ts : String) :
    List (String × AnchorInfo) :=
  assocInsert store cpID ⟨root, ts⟩

/-- `addAnchor` from `src/ott/anchor.go`, from the point where the submitting
boot's public key has been fetched and parsed.  The DER decoding of the hex
signature (`asn1.Unmarshal`) and the ECDSA verification are Go-library
primitives passed in as functions over an abstract key type `K`; the handler
returns the HTTP status it writes together with the resulting state. -/
def addAnchor {K : Type} (derDecode : List Nat → Option (Int × Int))
    (ecdsaVerify : K → List Nat → Int × Int → Bool) (pubKey : K)
    (req : AnchorRequest) (st : AnchorState) : Nat × AnchorState :=
  let hash := SHA256.sha256 (strBytes (req.root ++ "|" ++ req.ts))
  let sigBytes := hexDecode req.sig
  match derDecode sigBytes with
  | none => (403, st)
  | some sig =>
    if ¬ ecdsaVerify pubKey hash sig then (403, st)
    else
      let ar : AnchorRecord := ⟨req.cpID, emptyContract, req.root, [], req.ts⟩
      let st := { st with pending := st.pending ++ [ar] }
      let st := { st with anchorStore := saveAnchorToDB st.anchorStore req.cpID req.root req.ts }
      let st := { st with anchorMap := assocInsert st.anchorMap req.cpID ⟨req.root, req.ts⟩ }
      let st :=
        if req.cpBoot ≠ ((st.cpBootMap.lookup req.cpID).getD "") then
          { st with cpBootMap := assocInsert st.cpBootMap req.cpID req.cpBoot }
        else st
      (200, st)

end Ott

namespace PB

/-- `LowerBlock` of the PoW-BFT Hos variant (`src/unnamed/part_016`, also in
`src/BFT/gov/data_models.go` without the PBFT fields); float32 `Elapsed`
idealized as a rational. -/
structure LowerBlock where
  index : Int
  hosID : String
  prevHash : String
  timestamp : String
  entries : List ClinicRecord
  merkleRoot : String
  proposer : String
  signatures : List String
  blockHash : String
  elapsed : Rat
  leafHashes : List String
deriving DecidableEq

/-- Insert-or-replace in an `Int`-keyed association list (LevelDB put). -/
def intAssocInsert {α : Type} (m : List (Int × α)) (k : Int) (v : α) : List (Int × α) :=
  (k, v) :: m.filter (fun p => p.1 ≠ k)

/-- Insert-or-replace in a `String`-keyed association list (LevelDB put). -/
def strAssocInsert {α : Type} (m : List (String × α)) (k : String) (v : α) :
    List (String × α) :=
  (k, v) :: m.filter (fun p => p.1 ≠ k)

/-- The node-local ledger state touched by the PBFT finalization path:
`block_<i>` and `hash_<h>` keyspaces, the `root_latest` cache,
`height_latest`, the content indices and the consensus phase flag. -/
structure ChainState where
  blocksByIndex : List (Int × LowerBlock)
  blocksByHash : List (String × LowerBlock)
  rootLatest : String
  height : Option Int
  indices : List (String × String)
  consPhase : Int
deriving DecidableEq

/-- `getBlockByIndex` against the modelled store. -/
def getBlockByIndex (st : ChainState) (i : Int) : Option LowerBlock :=
  st.blocksByIndex.lookup i

/-- Modelled from the spec (§4.2) and the structurally identical CP storage
in `src/unnamed/part_011`: `saveBlockToDB` writes the block under its index
and hash keys and refreshes `root_latest`; the Hos storage file itself is
missing from the corpus. -/
def saveBlockToDB (st : ChainState) (lb : LowerBlock) : ChainState :=
  { st with
    blocksByIndex := intAssocInsert st.blocksByIndex lb.index lb
    blocksByHash := strAssocInsert st.blocksByHash lb.blockHash lb
    rootLatest := lb.merkleRoot }

/-- Modelled from the spec (§4.2): `updateIndicesForBlock` writes a
`"<blockIndex>:<entryIndex>"` pointer per record id; the Hos storage file is
missing from the corpus. -/
def updateIndicesForBlock (st : ChainState) (lb : LowerBlock) : ChainState :=
  { st with
    indices :=
      (lb.entries.enum.map
        (fun p => ("cid_" ++ p.2.clinicID, toString lb.index ++ ":" ++ toString p.1))) ++
      st.indices }

/-- `setLatestHeight`. -/
def setLatestHeight (st : ChainState) (h : Int) : ChainState :=
  { st with height := some h }

/-- The static node context the evidence verifier reads: `verifyECDSA`
(whose Go definition is a crypto-library wrapper missing from the corpus,
hence abstract), the node's own address and `meta_hos_pubkey`, the peer
snapshot and the peer public-key registry. -/
structure ConsEnv where
  verify : String → List Nat → String → Bool
  selfAddr : String
  selfPub : String
  peers : List String
  keys : List (String × String)

/-- The PEM a node finds for peer `p` (Go map read, zero value `""`). -/
def ConsEnv.pem (env : ConsEnv) (p : String) : String :=
  (env.keys.lookup p).getD ""

/-- The inner peer scan of `verifyConsensusEvidence`: first peer that is not
yet counted, has a registered key and verifies the signature. -/
def findSigner (env : ConsEnv) (h : List Nat) (sig : String) (checked : List String) :
    List String → Option String
  | [] => none
  | p :: rest =>
    if checked.contains p then findSigner env h sig checked rest
    else if env.pem p = "" then findSigner env h sig checked rest
    else if env.verify (env.pem p) h sig then some p
    else findSigner env h sig checked rest

/-- One iteration of the signature loop of `verifyConsensusEvidence`: try the
node's own key first, then scan the peers; the found signer joins the
`checkedPeers` set (and `validCount`, its length). -/
def checkSig (env : ConsEnv) (h : List Nat) (checked : List String) (sig : String) :
    List String :=
  if ¬ checked.contains env.selfAddr ∧ env.verify env.selfPub h sig then
    checked ++ [env.selfAddr]
  else
    match findSigner env h sig checked env.peers with
    | some p => checked ++ [p]
    | none => checked

/-- `verifyConsensusEvidence(lb)` from `src/PoW-BFT/hos/chain.go` (the same
code verifies `UpperBlock`s in `src/BFT/gov/data_models.go`): require at
least `2f+1` signatures outright, then count distinct signers whose key
verifies some signature over `sha256(block_hash)`, and require `2f+1` of
them. -/
def verifyConsensusEvidence (env : ConsEnv) (lb : LowerBlock) : Option String :=
  let n := env.peers.length + 1
  let f := (n - 1) / 3
  let required := 2 * f + 1
  if lb.signatures.length < required then some "insufficient signatures"
  else
    let msgHash := SHA256.sha256 (strBytes lb.blockHash)
    let checked := lb.signatures.foldl (checkSig env msgHash) []
    if checked.length < required then some "valid signatures insufficient"
    else none

/-- `onBlockReceived(lb)` from `src/PoW-BFT/hos/chain.go`: verify the PBFT
evidence, check the previous-block link, then persist block, indices and
height and reset the consensus phase.  Errors return the state untouched
(the anchoring submission on the boot node is a network call with no local
ledger effect). -/
def onBlockReceived (env : ConsEnv) (st : ChainState) (lb : LowerBlock) :
    ChainState × Option String :=
  match verifyConsensusEvidence env lb with
  | some e => (st, some ("consensus verification failed: " ++ e))
  | none =>
    match getBlockByIndex st (lb.index - 1) with
    | none => (st, some "load prev block")
    | some prev =>
      if lb.prevHash ≠ prev.blockHash then (st, some "invalid hash link")
      else
        let st := saveBlockToDB st lb
        let st := updateIndicesForBlock st lb
        let st := setLatestHeight st lb.index
        ({ st with consPhase := 0 }, none)

/-- What it means for address `a` to be a counted signer: it is the node
itself, or a peer with a registered key, whose key verifies one of the
block's signatures over the message hash. -/
def validSigner (env : ConsEnv) (h : List Nat) (sigs : List String) (a : String) : Prop :=
  (a = env.selfAddr ∧ ∃ sig ∈ sigs, env.verify env.selfPub h sig = true) ∨
  (a ∈ env.peers ∧ env.pem a ≠ "" ∧ ∃ sig ∈ sigs, env.verify (env.pem a) h sig = true)

end PB

/-- Environment for the C2 witness: a solo node (no peers, quorum 1) whose
verifier accepts everything. -/
def C2envW : PB.ConsEnv := ⟨(fun _ _ _ => true), "a", "pk", [], []⟩

/-- Previous (genesis-shaped) block for the C2 witness. -/
def C2prevW : PB.LowerBlock := ⟨0, "H", "p0", "t0", [], "", "SYSTEM", [], "h0", 0, []⟩

/-- Finalized block carrying one signature for the C2 witness. -/
def C2lbW : PB.LowerBlock := ⟨1, "H", "h0", "t1", [], "", "a", ["s1"], "bh", 0, []⟩

/-- Pre-state holding only the previous block at height 0. -/
def C2stW : PB.ChainState := ⟨[(0, C2prevW)], [("h0", C2prevW)], "", some 0, [], 2⟩

/-- Post-state: block 1 persisted under index and hash, height 1, phase idle. -/
def C2stW2 : PB.ChainState :=
  ⟨[(1, C2lbW), (0, C2prevW)], [("bh", C2lbW), ("h0", C2prevW)], "", some 1, [], 0⟩

namespace Cp

/-!
The CP PoW node (`src/cp/pow.go` with `src/cp/chain.go` and the storage in
`src/unnamed/part_011`): `receiveBlock` drops a block whose index is already
persisted, and otherwise stops local mining and appends.
-/

/-- `PoWHeader` from `src/cp/pow.go` (RFC-3339 string timestamp). -/
structure PoWHeader where
  index : Int
  prevHash : String
  merkleRoot : String
  timestamp : String
  difficulty : Int
  nonce : Int
deriving DecidableEq

/-- The CP `LowerBlock` as this variant constructs it (`cp/LowerBlock.go`
plus the `Elapsed` slot set by `addBlockToChain`). -/
structure LowerBlock where
  index : Int
  cpID : String
  prevHash : String
  timestamp : String
  entries : List Ott.ContentRecord
  merkleRoot : String
  nonce : Int
  difficulty : Int
  blockHash : String
  elapsed : Rat
deriving DecidableEq

/-- The CP node state `receiveBlock` can touch: the LevelDB keyspaces of
`part_011` plus the mining flags and the global difficulty. -/
structure NodeState where
  blocksByIndex : List (Int × LowerBlock)
  blocksByHash : List (String × LowerBlock)
  rootLatest : String
  indices : List (String × String)
  height : Option Int
  miningStop : Bool
  isMining : Bool
  globalDifficulty : Int
deriving DecidableEq

/-- `getBlockByIndex` against the modelled store. -/
def getBlockByIndex (st : NodeState) (i : Int) : Option LowerBlock :=
  st.blocksByIndex.lookup i

/-- `saveBlockToDB` from `part_011`: write under `block_<i>` and `hash_<h>`
and refresh `root_latest`. -/
def saveBlockToDB (st : NodeState) (lb : LowerBlock) : NodeState :=
  { st with
    blocksByIndex := PB.intAssocInsert st.blocksByIndex lb.index lb
    blocksByHash := PB.strAssocInsert st.blocksByHash lb.blockHash lb
    rootLatest := lb.merkleRoot }

/-- The `cid_`/`fp_`/`info_` pointer writes of one entry
(`updateIndicesForBlock` in `part_011`). -/
def entryIndexWrites (bi : Int) (ei : Nat) (e : Ott.ContentRecord) :
    List (String × String) :=
  let ptr := toString bi ++ ":" ++ toString ei
  (if e.contentID ≠ "" then [("cid_" ++ e.contentID, ptr)] else []) ++
  (if e.fingerprint ≠ "" then [("fp_" ++ e.fingerprint, ptr)] else []) ++
  e.info.filterMap (fun kv =>
    let v := kv.2.trim
    if v = "" then none
    else some ("info_" ++ kv.1 ++ "_" ++ v.toLower, ptr))

/-- `updateIndicesForBlock` from `part_011`. -/
def updateIndicesForBlock (st : NodeState) (lb : LowerBlock) : NodeState :=
  { st with
    indices :=
      lb.entries.enum.foldl
        (fun m p =>
          (entryIndexWrites lb.index p.1 p.2).foldl
            (fun m kv => PB.strAssocInsert m kv.1 kv.2) m)
        st.indices }

/-- `setLatestHeight`. -/
def setLatestHeight (st : NodeState) (h : Int) : NodeState :=
  { st with height := some h }

/-- `validHash(hash, difficulty)`: the hash starts with `difficulty` `'0'`
characters. -/
def validHash (hash : String) (difficulty : Int) : Bool :=
  List.isPrefixOf (List.replicate difficulty.toNat '0') hash.data

/-- `onBlockReceived(lb)` from `src/cp/chain.go`: stop mining immediately,
check the previous link and the PoW prefix, then persist; the boot node's
anchor submission is a network call with no ledger effect. -/
def onBlockReceived (st : NodeState) (lb : LowerBlock) : NodeState × Option String :=
  let st := { st with miningStop := true }
  match getBlockByIndex st (lb.index - 1) with
  | none => (st, some "load prev")
  | some prev =>
    if lb.prevHash ≠ prev.blockHash then (st, some "invalid prev hash")
    else if ¬ validHash lb.blockHash lb.difficulty then (st, some "invalid PoW hash")
    else
      let st := saveBlockToDB st lb
      let st := updateIndicesForBlock st lb
      let st := setLatestHeight st lb.index
      (st, none)

/-- The decoded `/receiveBlock` body of `src/cp/pow.go`. -/
structure ReceiveMsg where
  header : PoWHeader
  hash : String
  entries : List Ott.ContentRecord
  difficulty : Int
  elapsed : Rat
  winner : String
deriving DecidableEq

/-- `addBlockToChain` from `src/cp/pow.go`; its `onBlockReceived` error is
discarded. -/
def addBlockToChain (cpID : String) (st : NodeState) (header : PoWHeader)
    (hash : String) (elapsed : Rat) (entries : List Ott.ContentRecord) : NodeState :=
  (onBlockReceived st
    ⟨header.index, cpID, header.prevHash, header.timestamp, entries,
     header.merkleRoot, header.nonce, header.difficulty, hash, elapsed⟩).1

/-- `receiveBlock` from `src/cp/pow.go`: drop a block at an already-persisted
index before anything else; otherwise stop mining, verify the PoW prefix,
append, possibly adopt the sender's difficulty, and clear `isMining`. -/
def receiveBlock (cpID : String) (st : NodeState) (msg : ReceiveMsg) : NodeState :=
  if (getBlockByIndex st msg.header.index).isSome then st
  else
    let st := { st with miningStop := true }
    if ¬ validHash msg.hash msg.header.difficulty then st
    else
      let st := addBlockToChain cpID st msg.header msg.hash msg.elapsed msg.entries
      let st :=
        if msg.difficulty ≠ msg.header.difficulty then
          { st with globalDifficulty := msg.difficulty }
        else st
      { st with isMining := false }

end Cp

namespace BH

/-!
The BFT-repo Hos PoW node: `receiveBlock` from `src/BFT/hos/bft.go` and
`onBlockReceived` from the `LowerChain` section of
`src/BFT/gov/data_models.go`.
-/

/-- `PoWHeader` from `src/BFT/hos/bft.go` (string timestamp). -/
structure PoWHeader where
  index : Int
  prevHash : String
  merkleRoot : String
  timestamp : String
  difficulty : Int
  nonce : Int
deriving DecidableEq

/-- `LowerBlock` from `src/BFT/gov/data_models.go`. -/
structure LowerBlock where
  index : Int
  hosID : String
  prevHash : String
  timestamp : String
  entries : List PB.ClinicRecord
  merkleRoot : String
  nonce : Int
  difficulty : Int
  blockHash : String
  elapsed : Rat
  leafHashes : List String
deriving DecidableEq

/-- The Hos node state `receiveBlock` can touch. -/
structure NodeState where
  blocksByIndex : List (Int × LowerBlock)
  blocksByHash : List (String × LowerBlock)
  rootLatest : String
  indices : List (String × String)
  height : Option Int
  miningStop : Bool
  isMining : Bool
deriving DecidableEq

/-- `getBlockByIndex` against the modelled store. -/
def getBlockByIndex (st : NodeState) (i : Int) : Option LowerBlock :=
  st.blocksByIndex.lookup i

/-- Modelled from the spec (§4.2), as for the PoW-BFT variant: block, hash
and `root_latest` writes; the Hos storage file is missing from the corpus. -/
def saveBlockToDB (st : NodeState) (lb : LowerBlock) : NodeState :=
  { st with
    blocksByIndex := PB.intAssocInsert st.blocksByIndex lb.index lb
    blocksByHash := PB.strAssocInsert st.blocksByHash lb.blockHash lb
    rootLatest := lb.merkleRoot }

/-- Modelled from the spec (§4.2): record-id pointer writes. -/
def updateIndicesForBlock (st : NodeState) (lb : LowerBlock) : NodeState :=
  { st with
    indices :=
      (lb.entries.enum.map
        (fun p => ("cid_" ++ p.2.clinicID, toString lb.index ++ ":" ++ toString p.1))) ++
      st.indices }

/-- `setLatestHeight`. -/
def setLatestHeight (st : NodeState) (h : Int) : NodeState :=
  { st with height := some h }

/-- `onBlockReceived(lb)` from the `LowerChain` of
`src/BFT/gov/data_models.go`: stop mining, check prev link and PoW prefix,
persist. -/
def onBlockReceived (st : NodeState) (lb : LowerBlock) : NodeState × Option String :=
  let st := { st with miningStop := true }
  match getBlockByIndex st (lb.index - 1) with
  | none => (st, some "load prev")
  | some prev =>
    if lb.prevHash ≠ prev.blockHash then (st, some "invalid prev hash")
    else if ¬ Cp.validHash lb.blockHash lb.difficulty then (st, some "invalid PoW hash")
    else
      let st := saveBlockToDB st lb
      let st := updateIndicesForBlock st lb
      let st := setLatestHeight st lb.index
      (st, none)

/-- The decoded `/receiveBlock` body of `src/BFT/hos/bft.go`. -/
structure ReceiveMsg where
  header : PoWHeader
  hash : String
  entries : List PB.ClinicRecord
  difficulty : Int
  elapsed : Rat
  leafHashes : List String
  winner : String
deriving DecidableEq

/-- `addBlockToChain` from `src/BFT/hos/bft.go` (Nonce and Difficulty are
left at their zero values). -/
def addBlockToChain (hosID : String) (st : NodeState) (header : PoWHeader)
    (hash : String) (elapsed : Rat) (entries : List PB.ClinicRecord)
    (leafHashes : List String) : NodeState :=
  (onBlockReceived st
    ⟨header.index, hosID, header.prevHash, header.timestamp, entries,
     header.merkleRoot, 0, 0, hash, elapsed, leafHashes⟩).1

/-- `receiveBlock` from `src/BFT/hos/bft.go`: a block at an already-persisted
index is ignored before `miningStop` is touched; otherwise stop mining,
append, and clear `isMining`. -/
def receiveBlock (hosID : String) (st : NodeState) (msg : ReceiveMsg) : NodeState :=
  if (getBlockByIndex st msg.header.index).isSome then st
  else
    let st := { st with miningStop := true }
    let st := addBlockToChain hosID st msg.header msg.hash msg.elapsed msg.entries msg.leafHashes
    { st with isMining := false }

end BH

namespace P6

/-- `PoWHeader` from `src/unnamed/part_006` (Unix-seconds timestamp). -/
structure PoWHeader where
  index : Int
  prevHash : String
  merkleRoot : String
  timestamp : Int
  difficulty : Int
  nonce : Int
deriving DecidableEq

/-- The decoded `/receiveBlock` body of `part_006` (no elapsed field). -/
structure ReceiveMsg where
  header : PoWHeader
  hash : String
  entries : List Ott.ContentRecord
  difficulty : Int
  winner : String
deriving DecidableEq

/-- `addBlockToChain` from `part_006`: the Unix timestamp is rendered to
RFC-3339 by `time.Unix(...).Format`, passed in as `fmtTime`; `Elapsed` stays
zero. -/
def addBlockToChain (cpID : String) (fmtTime : Int → String) (st : Cp.NodeState)
    (header : PoWHeader) (hash : String) (entries : List Ott.ContentRecord) :
    Cp.NodeState :=
  (Cp.onBlockReceived st
    ⟨header.index, cpID, header.prevHash, fmtTime header.timestamp, entries,
     header.merkleRoot, header.nonce, header.difficulty, hash, 0⟩).1

/-- `receiveBlock` from `part_006`: no duplicate-index check at all —
`miningStop` is set and `isMining` cleared unconditionally before the PoW
check and the append. -/
def receiveBlock (cpID : String) (fmtTime : Int → String) (st : Cp.NodeState)
    (msg : ReceiveMsg) : Cp.NodeState :=
  let st := { st with miningStop := true, isMining := false }
  if ¬ Cp.validHash msg.hash msg.header.difficulty then st
  else
    let st := addBlockToChain cpID fmtTime st msg.header msg.hash msg.entries
    if msg.difficulty ≠ msg.header.difficulty then
      { st with globalDifficulty := msg.difficulty }
    else st

end P6

/-- Chain of three CP blocks for the C8 counterexample. -/
def C8b0 : Cp.LowerBlock := ⟨0, "CP", "p", "t0", [], "", 0, 0, "h0", 0⟩

/-- Block 1 of the C8 chain. -/
def C8b1 : Cp.LowerBlock := ⟨1, "CP", "h0", "t1", [], "r1", 0, 0, "h1", 0⟩

/-- Block 2 (the tip) of the C8 chain. -/
def C8b2 : Cp.LowerBlock := ⟨2, "CP", "h1", "t2", [], "r2", 0, 0, "h2", 0⟩

/-- A node at height 2, not mining-stopped, currently mining. -/
def C8stW : Cp.NodeState :=
  ⟨[(0, C8b0), (1, C8b1), (2, C8b2)], [("h0", C8b0), ("h1", C8b1), ("h2", C8b2)],
   "r2", [], some 2, false, true, 4⟩

/-- A re-broadcast of the already-persisted block 1. -/
def C8msgW : P6.ReceiveMsg := ⟨⟨1, "h0", "r1", 1700000000, 0, 0⟩, "h1", [], 0, "w"⟩

/-- Hos-side block and state for the C8 witness. -/
def C8bhBlock : BH.LowerBlock := ⟨0, "H", "p", "t", [], "", 0, 0, "h0", 0, []⟩

/-- Hos-side node state holding block 0. -/
def C8bhState : BH.NodeState := ⟨[(0, C8bhBlock)], [("h0", C8bhBlock)], "", [], some 0, false, true⟩

/-- Hos-side duplicate message targeting index 0. -/
def C8bhMsg : BH.ReceiveMsg := ⟨⟨0, "x", "y", "t", 0, 0⟩, "zz", [], 0, 0, [], "w"⟩

/-- CP-side duplicate message targeting the persisted index 2. -/
def C8cpMsg : Cp.ReceiveMsg := ⟨⟨2, "h1", "r2", "t2", 0, 0⟩, "h2", [], 0, 0, "w"⟩

/-! ## Theorems -/

/-- SHA-256 of the empty byte string matches the published test vector. -/
theorem sha256Hex_empty_vector : sha256Hex [] = "e3b0c44298fc1c149afbf4c8996fb92427ae41e4649b934ca495991b7852b855" := by decide

/-- The OTT Merkle round trip succeeds on an even-sized list. -/
theorem ottMerkle_roundtrip_two_leaves : Ott.verifyMerkleProof "aa" (Ott.merkleRootHex ["aa", "bb"]) (Ott.merkleProof ["aa", "bb"] 0) = true := by decide

/-- The OTT Merkle round trip succeeds at index 1 of a 3-leaf list. -/
theorem ottMerkle_roundtrip_three_leaves_idx1 : Ott.verifyMerkleProof "bb" (Ott.merkleRootHex ["aa", "bb", "cc"]) (Ott.merkleProof ["aa", "bb", "cc"] 1) = true := by decide

/-- The OTT Merkle round trip fails at the odd duplicated leaf. -/
theorem ottMerkle_roundtrip_three_leaves_idx2_fails : Ott.verifyMerkleProof "cc" (Ott.merkleRootHex ["aa", "bb", "cc"]) (Ott.merkleProof ["aa", "bb", "cc"] 2) = false := by decide

/-- The OTT 3-leaf root matches an independent SHA-256 computation. -/
theorem ottMerkleRoot_three_leaves_vector : Ott.merkleRootHex ["aa", "bb", "cc"] = "8400d665cd8a52efe730d9ce7ec81e71393fc27ab48758e5598f6394c753b7e6" := by decide

/-- The Hos/Gov Merkle round trip succeeds at the duplicated leaf. -/
theorem hosMerkle_roundtrip_three_leaves : Hos.verifyMerkleProof "cc" (Hos.merkleProof ["aa", "bb", "cc"] 2) (Hos.merkleRootHex ["aa", "bb", "cc"]) = true := by decide

/-- The Hos/Gov Merkle round trip succeeds at index 4 of a 5-leaf list. -/
theorem hosMerkle_roundtrip_five_leaves : Hos.verifyMerkleProof "ee" (Hos.merkleProof ["aa", "bb", "cc", "dd", "ee"] 4) (Hos.merkleRootHex ["aa", "bb", "cc", "dd", "ee"]) = true := by decide

/-- C1: the spec's Merkle round-trip law `verify_merkle(leaf, merkle_proof(leaves, i),
merkle_root(leaves)) == true` fails on `src/ott/crypto_merkle.go` for odd-sized
lists at the duplicated last leaf: for `leaves = ["aa","bb","cc"]` the proofs
for indices 0 and 1 verify, but `merkleProof` emits no proof entry for the level
in which index 2 is the odd duplicated node (its sibling index 3 is out of
range), so the proof for index 2 fails to verify against the root. -/
theorem C1_merkle_roundtrip_fails_at_duplicated_leaf :
    Ott.verifyMerkleProof "aa" (Ott.merkleRootHex ["aa", "bb", "cc"])
      (Ott.merkleProof ["aa", "bb", "cc"] 0) = true ∧
    Ott.verifyMerkleProof "bb" (Ott.merkleRootHex ["aa", "bb", "cc"])
      (Ott.merkleProof ["aa", "bb", "cc"] 1) = true ∧
    Ott.verifyMerkleProof "cc" (Ott.merkleRootHex ["aa", "bb", "cc"])
      (Ott.merkleProof ["aa", "bb", "cc"] 2) = false := by
  decide

/-- C9 counterexample: `merkleRootHex` in `src/ott/crypto_merkle.go` returns the
empty string on an empty leaf list, not `sha256Hex("")` as the claim states. -/
theorem C9_empty_root_counterexample :
    Ott.merkleRootHex [] = "" ∧ Ott.merkleRootHex [] ≠ sha256Hex [] := by
  decide

/-- C9 (amended): the OTT/CP implementation returns `""` for empty leaves, while
the Hos/Gov implementation (`src/unnamed/part_014`) returns `sha256Hex` of the
empty byte string as the spec sentence describes. -/
theorem C9_empty_root_by_variant :
    Ott.merkleRootHex [] = "" ∧ Hos.merkleRootHex [] = sha256Hex [] := by
  decide

/-- C10: `merkleProof` in `src/ott/crypto_merkle.go` is total on out-of-range
indices: for `idx < 0` or `idx >= len(leaves)` it returns `nil` (the empty
proof) by its initial guard, performing no indexing at all. -/
theorem C10_merkleProof_out_of_range_nil (leaves : List String) (idx : Int)
    (h : idx < 0 ∨ (leaves.length : Int) ≤ idx) :
    Ott.merkleProof leaves idx = [] := by
  unfold Ott.merkleProof
  exact if_pos h

/-- C10 witness: index 5 is out of range for the single-leaf list `["aa"]`. -/
theorem C10_merkleProof_out_of_range_nil_witness :
    ((5 : Int) < 0 ∨ ((List.length ["aa"] : Nat) : Int) ≤ 5) ∧ Ott.merkleProof ["aa"] 5 = [] :=
  ⟨by decide, C10_merkleProof_out_of_range_nil ["aa"] 5 (by decide)⟩

/-- C4 counterexample: with 5 peers (`n = 6`, `f = 1`) the spec threshold
`2f+1` is 3 and `quorumSize` returns 3, but `checkQuorum` rejects 3 collected
votes because its expression `2*(n-1)/3 + 1` evaluates to 4. -/
theorem C4_quorum_mismatch_counterexample :
    PB.quorumSize ["p1", "p2", "p3", "p4", "p5"] = 3 ∧
    PB.checkQuorum ["p1", "p2", "p3", "p4", "p5"] ["s1", "s2", "s3"] = false := by
  decide

/-- C4 (amended): `quorumSize` computes `2⌊(n-1)/3⌋+1` as the claim states,
`checkQuorum` accepts exactly when the vote count reaches `⌊2(n-1)/3⌋+1`, and
the two thresholds coincide if and only if `|peers| mod 3 ≠ 2` (they differ by
one otherwise, e.g. at 5 peers). -/
theorem C4_quorum_thresholds (peers : List String) (signatures : List String) :
    (PB.checkQuorum peers signatures = true ↔
      PB.checkQuorumThreshold peers ≤ signatures.length) ∧
    (PB.checkQuorumThreshold peers = PB.quorumSize peers ↔ peers.length % 3 ≠ 2) := by
  constructor
  · exact decide_eq_true_iff
  · have h1 : PB.checkQuorumThreshold peers = (2 * peers.length) / 3 + 1 := rfl
    have h2 : PB.quorumSize peers = 2 * (peers.length / 3) + 1 := rfl
    rw [h1, h2]
    omega

/-- C4 witness: at 4 peers both thresholds are 3; the iff instances hold. -/
theorem C4_quorum_thresholds_witness :
    (PB.checkQuorum ["p1", "p2", "p3", "p4"] ["s1", "s2", "s3"] = true ↔
      PB.checkQuorumThreshold ["p1", "p2", "p3", "p4"] ≤ 3) ∧
    (PB.checkQuorumThreshold ["p1", "p2", "p3", "p4"] = PB.quorumSize ["p1", "p2", "p3", "p4"] ↔
      (4 : Nat) % 3 ≠ 2) :=
  C4_quorum_thresholds ["p1", "p2", "p3", "p4"] ["s1", "s2", "s3"]

/-- The canonical header JSON has its six keys sorted and compact. -/
theorem govHeaderCanonicalJson_demo : Gov.headerCanonicalJson Gov.tamperedDemoBlock =
    "\x7b\"gov_id\":\"g\",\"index\":1,\"merkle_root\":\"\",\"prev_hash\":\"h0\",\"proposer\":\"p\",\"timestamp\":\"t1\"\x7d" := by
  decide

/-- The demo header hash matches an independent SHA-256 computation. -/
theorem govComputeHash_demo_vector : Gov.computeHash Gov.tamperedDemoBlock =
    "3d7486d22ff473018bbab4d1e310c93c3e00cd91de7eb5f967abd8f72b1cf276" := by decide

/-- C3: `validateUpperBlock` never recomputes the block hash — its step 5
compares `newBlk.BlockHash` with itself — so a block whose `block_hash` field
(`"deadbeef"`) differs from the recomputed header-subset hash passes
validation, contradicting the claim (and the validator's own comment and
dead `"block_hash mismatch"` error branch). -/
theorem C3_validateUpperBlock_accepts_tampered_hash :
    Gov.validateUpperBlock Gov.tamperedDemoBlock Gov.prevDemoBlock = none ∧
    Gov.computeHash Gov.tamperedDemoBlock ≠ Gov.tamperedDemoBlock.blockHash := by
  decide

/-- C7 counterexample: with a zero average (`ratio = 0 < 0.85`) the cp
increment branch moves difficulty 8 to 9, escaping the claimed range `[1, 8]`,
while from 7 it returns 7 (the `== 8` check cancels the increment), not the
8 the claimed `+1`-with-ceiling-8 rule would give. -/
theorem C7_difficulty_counterexample :
    Cp.adjustDifficulty [] 1 0 8 = 9 ∧ Cp.adjustDifficulty [] 1 0 7 = 7 := by
  unfold Cp.adjustDifficulty Cp.DiffStandardTime
  norm_num

/-- C7 (amended): in `cp/pow.go` the window/branch structure is as claimed but
the effective ceiling is 7 — from any difficulty in `[1, 7]` the adjusted
difficulty stays in `[1, 7]` (and from 8 it escapes to 9, per the
counterexample) — and the `part_006` variant increments with no ceiling at
all whenever its single-elapsed ratio is below its 0.75 threshold. -/
theorem C7_difficulty_adjustment_amended (elapsedByIndex : List (Int × Rat))
    (idx : Int) (elapsed : Rat) (d : Int) (e t : Rat) (dd : Int)
    (hd1 : 1 ≤ d) (hd7 : d ≤ 7) (he : 0 < e) (hr : e / t < 75 / 100) :
    (1 ≤ Cp.adjustDifficulty elapsedByIndex idx elapsed d ∧
      Cp.adjustDifficulty elapsedByIndex idx elapsed d ≤ 7) ∧
    P6.adjustDifficulty e t dd = dd + 1 := by
  constructor
  · simp only [Cp.adjustDifficulty]
    split_ifs <;> omega
  · simp only [P6.adjustDifficulty]
    rw [if_neg (not_le.mpr he), if_pos hr]

/-- C7 witness: a 30-second block at difficulty 3 adjusts to 4 within
`[1, 7]`, and the `part_006` variant at `elapsed = 1`, `target = 60` (ratio
`1/60 < 0.75`) increments 5 to 6. -/
theorem C7_difficulty_adjustment_amended_witness :
    ((1 : Int) ≤ 3 ∧ (3 : Int) ≤ 7) ∧ (0 : Rat) < 1 ∧ (1 : Rat) / 60 < 75 / 100 ∧
    ((1 ≤ Cp.adjustDifficulty [] 1 30 3 ∧ Cp.adjustDifficulty [] 1 30 3 ≤ 7) ∧
      P6.adjustDifficulty 1 60 5 = 5 + 1) :=
  ⟨by decide, by norm_num, by norm_num,
    C7_difficulty_adjustment_amended [] 1 30 3 1 60 5 (by decide) (by decide)
      (by norm_num) (by norm_num)⟩

/-- The Gov-side loop accumulates exactly the filter of the remaining items,
as long as no mismatching item trips the 10-byte log slicing. -/
theorem PB.verifyHosResultsGo_eq_filter (anchorRoot : String)
    (items : List PB.SearchResponse) (verified : List PB.SearchResponse)
    (hlen : ∀ it ∈ items, it.latestRoot ≠ anchorRoot →
      10 ≤ it.latestRoot.utf8ByteSize ∧ 10 ≤ anchorRoot.utf8ByteSize) :
    PB.verifyHosResultsGo anchorRoot items verified =
      .ok (verified ++ items.filter (PB.hosItemVerified anchorRoot)) := by
  induction items generalizing verified with
  | nil => simp [PB.verifyHosResultsGo]
  | cons it rest ih =>
    have hrest : ∀ x ∈ rest, x.latestRoot ≠ anchorRoot →
        10 ≤ x.latestRoot.utf8ByteSize ∧ 10 ≤ anchorRoot.utf8ByteSize :=
      fun x hx => hlen x (List.mem_cons_of_mem it hx)
    by_cases hne : it.latestRoot = anchorRoot
    · by_cases hv : Hos.verifyMerkleProof it.leaf it.proof it.blockRoot
      · simp [PB.verifyHosResultsGo, hne, hv, ih _ hrest, PB.hosItemVerified,
          List.filter_cons]
      · simp [PB.verifyHosResultsGo, hne, hv, ih _ hrest, PB.hosItemVerified,
          List.filter_cons]
    · have hl := hlen it (List.mem_cons_self it rest) hne
      simp [PB.verifyHosResultsGo, hne, hl, ih _ hrest, PB.hosItemVerified,
        List.filter_cons]

/-- The OTT-side loop accumulates exactly the filter, unconditionally. -/
theorem Ott.verifyCpResultsGo_eq_filter (anchorRoot : String)
    (items : List Ott.SearchResponse) (verified : List Ott.SearchResponse) :
    Ott.verifyCpResultsGo anchorRoot items verified =
      verified ++ items.filter (Ott.cpItemVerified anchorRoot) := by
  induction items generalizing verified with
  | nil => simp [Ott.verifyCpResultsGo]
  | cons it rest ih =>
    by_cases hne : it.root = anchorRoot
    · by_cases hv : Ott.verifyMerkleProof it.leaf anchorRoot it.proof
      · simp [Ott.verifyCpResultsGo, hne, hv, ih, Ott.cpItemVerified, List.filter_cons]
      · simp [Ott.verifyCpResultsGo, hne, hv, ih, Ott.cpItemVerified, List.filter_cons]
    · simp [Ott.verifyCpResultsGo, hne, ih, Ott.cpItemVerified, List.filter_cons]

/-- C5 counterexample: an item whose stale `latest_root` is shorter than 10
bytes is not merely "skipped and absent from the returned list" — the log
line `it.LatestRoot[:10]` in `verifyHosResults` panics, so no list is
returned at all. -/
theorem C5_query_panics_counterexample :
    PB.verifyHosResults [("P", ⟨"0123456789abcdef", "ts"⟩)] "P" [shortRootItem] =
      PB.QueryOutcome.panicked := by
  decide

/-- C5 (amended): provided every mismatching item's `latest_root` and the
stored anchor root are at least 10 bytes long (otherwise the mismatch log's
`[:10]` slicing panics), `verifyHosResults` returns exactly the items whose
`latest_root` equals the stored anchor root and whose Merkle proof verifies
the leaf against the item's `block_root`; the OTT-variant `verifyCpResults`
satisfies the same characterization unconditionally, with its single `root`
field playing both root roles. -/
theorem C5_query_returns_exactly_verified_items
    (anchorMap : List (String × AnchorInfo)) (hosID : String)
    (items : List PB.SearchResponse) (anch : AnchorInfo)
    (cpAnchorMap : List (String × AnchorInfo)) (cpID : String)
    (citems : List Ott.SearchResponse) (canch : AnchorInfo)
    (hanch : anchorMap.lookup hosID = some anch)
    (hlen : ∀ it ∈ items, it.latestRoot ≠ anch.root →
      10 ≤ it.latestRoot.utf8ByteSize ∧ 10 ≤ anch.root.utf8ByteSize)
    (hcanch : cpAnchorMap.lookup cpID = some canch) :
    PB.verifyHosResults anchorMap hosID items =
      PB.QueryOutcome.ok (items.filter (PB.hosItemVerified anch.root)) ∧
    Ott.verifyCpResults cpAnchorMap cpID citems =
      Except.ok (citems.filter (Ott.cpItemVerified canch.root)) := by
  constructor
  · simp only [PB.verifyHosResults, hanch]
    simpa using PB.verifyHosResultsGo_eq_filter anch.root items [] hlen
  · simp only [Ott.verifyCpResults, hcanch]
    rw [Ott.verifyCpResultsGo_eq_filter]
    simp

/-- C5 witness: concrete instantiation of the amended theorem. -/
theorem C5_query_returns_exactly_verified_items_witness :
    (List.lookup "P" [("P", C5demoAnchor)] = some C5demoAnchor) ∧
    (∀ it ∈ [C5demoItem], it.latestRoot ≠ C5demoAnchor.root →
      10 ≤ it.latestRoot.utf8ByteSize ∧ 10 ≤ C5demoAnchor.root.utf8ByteSize) ∧
    (List.lookup "Q" [("Q", C5demoCpAnchor)] = some C5demoCpAnchor) ∧
    (PB.verifyHosResults [("P", C5demoAnchor)] "P" [C5demoItem] =
      PB.QueryOutcome.ok (List.filter (PB.hosItemVerified C5demoAnchor.root) [C5demoItem]) ∧
    Ott.verifyCpResults [("Q", C5demoCpAnchor)] "Q" [C5demoCpItem] =
      Except.ok (List.filter (Ott.cpItemVerified C5demoCpAnchor.root) [C5demoCpItem])) :=
  ⟨by decide, by decide, by decide,
    C5_query_returns_exactly_verified_items [("P", C5demoAnchor)] "P" [C5demoItem]
      C5demoAnchor [("Q", C5demoCpAnchor)] "Q" [C5demoCpItem] C5demoCpAnchor
      (by decide) (by decide) (by decide)⟩

/-- C6: when the submitted signature fails DER decoding, or decodes but fails
ECDSA verification over `sha256(root|ts)` (e.g. because the root was
tampered with), `addAnchor` responds 403 and the state is returned exactly as
it was: nothing enters the pending pool, the anchor store, the anchor map or
the boot-routing map. -/
theorem C6_addAnchor_rejects_bad_signature_without_state_change {K : Type}
    (derDecode : List Nat → Option (Int × Int))
    (ecdsaVerify : K → List Nat → Int × Int → Bool) (pubKey : K)
    (req : Ott.AnchorRequest) (st : Ott.AnchorState)
    (h : ∀ sig, derDecode (hexDecode req.sig) = some sig →
      ecdsaVerify pubKey (SHA256.sha256 (strBytes (req.root ++ "|" ++ req.ts))) sig = false) :
    Ott.addAnchor derDecode ecdsaVerify pubKey req st = (403, st) := by
  unfold Ott.addAnchor
  cases hdec : derDecode (hexDecode req.sig) with
  | none => simp [hdec]
  | some sig =>
    have hv := h sig hdec
    simp [hdec, hv]

/-- C6 witness: a DER decoder that rejects everything yields 403 and leaves a
non-trivial state untouched. -/
theorem C6_addAnchor_rejects_bad_signature_without_state_change_witness :
    Ott.addAnchor (K := String) (fun _ => none) (fun _ _ _ => true) "pem"
      ⟨"P", "boot:1", "r00t", "ts", "00"⟩
      ⟨[⟨"Q", Ott.emptyContract, "r", [], "t"⟩], [], [], []⟩ =
      (403, ⟨[⟨"Q", Ott.emptyContract, "r", [], "t"⟩], [], [], []⟩) :=
  C6_addAnchor_rejects_bad_signature_without_state_change (fun _ => none)
    (fun _ _ _ => true) "pem" ⟨"P", "boot:1", "r00t", "ts", "00"⟩
    ⟨[⟨"Q", Ott.emptyContract, "r", [], "t"⟩], [], [], []⟩
    (fun _ hs => Option.noConfusion hs)

/-- A signer returned by the peer scan is a peer that was not yet counted,
has a registered key, and verifies the signature. -/
theorem PB.findSigner_spec (env : PB.ConsEnv) (h : List Nat) (sig : String)
    (checked : List String) :
    ∀ (ps : List String) (p : String), PB.findSigner env h sig checked ps = some p →
      p ∈ ps ∧ p ∉ checked ∧ env.pem p ≠ "" ∧ env.verify (env.pem p) h sig = true := by
  intro ps
  induction ps with
  | nil => intro p hp; simp [PB.findSigner] at hp
  | cons q rest ih =>
    intro p hp
    unfold PB.findSigner at hp
    split_ifs at hp with h1 h2 h3
    · rcases ih p hp with ⟨hm, hrest⟩
      exact ⟨List.mem_cons_of_mem q hm, hrest⟩
    · rcases ih p hp with ⟨hm, hrest⟩
      exact ⟨List.mem_cons_of_mem q hm, hrest⟩
    · cases hp
      refine ⟨List.mem_cons_self q rest, ?_, h2, h3⟩
      simpa using h1
    · rcases ih p hp with ⟨hm, hrest⟩
      exact ⟨List.mem_cons_of_mem q hm, hrest⟩

/-- One signature-loop step preserves distinctness and validity of the
counted-signer list, and never removes a signer. -/
theorem PB.checkSig_step (env : PB.ConsEnv) (h : List Nat) (fullSigs : List String)
    (checked : List String) (s : String) (hs : s ∈ fullSigs)
    (hnd : checked.Nodup) (hok : ∀ a ∈ checked, PB.validSigner env h fullSigs a) :
    (PB.checkSig env h checked s).Nodup ∧
    (∀ a ∈ PB.checkSig env h checked s, PB.validSigner env h fullSigs a) ∧
    checked.length ≤ (PB.checkSig env h checked s).length := by
  unfold PB.checkSig
  split_ifs with hself
  · have hnotmem : env.selfAddr ∉ checked := by simpa using hself.1
    refine ⟨?_, ?_, by simp⟩
    · simp [List.nodup_append, hnd, List.disjoint_singleton, hnotmem]
    · intro a ha
      rcases List.mem_append.mp ha with hold | hnew
      · exact hok a hold
      · have : a = env.selfAddr := by simpa using hnew
        exact Or.inl ⟨this, s, hs, hself.2⟩
  · cases hfind : PB.findSigner env h s checked env.peers with
    | none => exact ⟨hnd, hok, le_refl _⟩
    | some p =>
      rcases PB.findSigner_spec env h s checked env.peers p hfind with ⟨hmem, hnm, hpem, hv⟩
      refine ⟨?_, ?_, by simp⟩
      · simp [List.nodup_append, hnd, List.disjoint_singleton, hnm]
      · intro a ha
        rcases List.mem_append.mp ha with hold | hnew
        · exact hok a hold
        · have : a = p := by simpa using hnew
          subst this
          exact Or.inr ⟨hmem, hpem, s, hs, hv⟩

/-- The whole signature loop: starting from a distinct list of valid signers,
the result is a distinct list of valid signers. -/
theorem PB.checkSig_foldl_spec (env : PB.ConsEnv) (h : List Nat) (fullSigs : List String) :
    ∀ (sigs : List String) (checked : List String),
      (∀ s ∈ sigs, s ∈ fullSigs) → checked.Nodup →
      (∀ a ∈ checked, PB.validSigner env h fullSigs a) →
      (sigs.foldl (PB.checkSig env h) checked).Nodup ∧
      (∀ a ∈ sigs.foldl (PB.checkSig env h) checked, PB.validSigner env h fullSigs a) := by
  intro sigs
  induction sigs with
  | nil => exact fun checked _ hnd hok => ⟨hnd, hok⟩
  | cons s rest ih =>
    intro checked hsub hnd hok
    have hstep := PB.checkSig_step env h fullSigs checked s
      (hsub s (List.mem_cons_self s rest)) hnd hok
    simpa using ih (PB.checkSig env h checked s)
      (fun x hx => hsub x (List.mem_cons_of_mem s hx)) hstep.1 hstep.2.1

/-- When `verifyConsensusEvidence` succeeds, the block carries at least
`quorumSize` signatures and the loop produced at least `quorumSize` distinct
valid signers. -/
theorem PB.verifyConsensusEvidence_ok (env : PB.ConsEnv) (lb : PB.LowerBlock)
    (hev : PB.verifyConsensusEvidence env lb = none) :
    PB.quorumSize env.peers ≤ lb.signatures.length ∧
    ∃ signers : List String, signers.Nodup ∧
      PB.quorumSize env.peers ≤ signers.length ∧
      ∀ a ∈ signers,
        PB.validSigner env (SHA256.sha256 (strBytes lb.blockHash)) lb.signatures a := by
  have hq : PB.quorumSize env.peers = 2 * ((env.peers.length + 1 - 1) / 3) + 1 := rfl
  unfold PB.verifyConsensusEvidence at hev
  simp only [] at hev
  split_ifs at hev with h1 h2
  rcases PB.checkSig_foldl_spec env (SHA256.sha256 (strBytes lb.blockHash)) lb.signatures
    lb.signatures [] (fun s hs => hs) List.nodup_nil (by intro a ha; cases ha) with ⟨hnd, hok⟩
  refine ⟨by rw [hq]; omega, _, hnd, by rw [hq]; omega, hok⟩

/-- C2: along the PBFT finalization path (`onBlockReceived`), a block is
persisted only when `verifyConsensusEvidence` accepted it, in which case it
carries at least `quorumSize` signatures and there are at least `quorumSize`
pairwise-distinct signers — each the node itself or a known peer whose key
verifies one of the block's signatures over `sha256(block_hash)` — and the
block is stored under its index with the height advanced; when the evidence
check fails, the handler errors and the entire node state is unchanged. -/
theorem C2_pbft_persistence_requires_quorum_evidence (env : PB.ConsEnv)
    (st st' : PB.ChainState) (lb : PB.LowerBlock) (msg : Option String)
    (hrun : PB.onBlockReceived env st lb = (st', msg)) :
    (msg = none →
      PB.verifyConsensusEvidence env lb = none ∧
      PB.getBlockByIndex st' lb.index = some lb ∧
      st'.height = some lb.index ∧
      PB.quorumSize env.peers ≤ lb.signatures.length ∧
      ∃ signers : List String, signers.Nodup ∧
        PB.quorumSize env.peers ≤ signers.length ∧
        ∀ a ∈ signers,
          PB.validSigner env (SHA256.sha256 (strBytes lb.blockHash)) lb.signatures a) ∧
    (PB.verifyConsensusEvidence env lb ≠ none → st' = st ∧ msg ≠ none) := by
  unfold PB.onBlockReceived at hrun
  split at hrun
  · next e hev =>
    cases hrun
    refine ⟨(fun hmsg => nomatch hmsg), fun _ => ⟨rfl, ?_⟩⟩
    simp
  · next hev =>
    split at hrun
    · next hprev =>
      cases hrun
      exact ⟨(fun hmsg => nomatch hmsg), fun hne => absurd hev hne⟩
    · next prev hprev =>
      split at hrun
      · next hlink =>
        cases hrun
        exact ⟨(fun hmsg => nomatch hmsg), fun hne => absurd hev hne⟩
      · next hlink =>
        cases hrun
        have hok := PB.verifyConsensusEvidence_ok env lb hev
        refine ⟨fun _ => ⟨hev, ?_, rfl, hok.1, hok.2⟩, fun hne => absurd hev hne⟩
        simp [PB.getBlockByIndex, PB.setLatestHeight, PB.updateIndicesForBlock,
          PB.saveBlockToDB, PB.intAssocInsert, List.lookup]

/-- C2 witness: the theorem applied to a concrete successful finalization. -/
theorem C2_pbft_persistence_requires_quorum_evidence_witness :
    PB.onBlockReceived C2envW C2stW C2lbW = (C2stW2, (none : Option String)) ∧
    (((none : Option String) = none →
      PB.verifyConsensusEvidence C2envW C2lbW = none ∧
      PB.getBlockByIndex C2stW2 C2lbW.index = some C2lbW ∧
      C2stW2.height = some C2lbW.index ∧
      PB.quorumSize C2envW.peers ≤ C2lbW.signatures.length ∧
      ∃ signers : List String, signers.Nodup ∧
        PB.quorumSize C2envW.peers ≤ signers.length ∧
        ∀ a ∈ signers,
          PB.validSigner C2envW (SHA256.sha256 (strBytes C2lbW.blockHash))
            C2lbW.signatures a) ∧
    (PB.verifyConsensusEvidence C2envW C2lbW ≠ none →
      C2stW2 = C2stW ∧ (none : Option String) ≠ none)) :=
  ⟨by decide,
    C2_pbft_persistence_requires_quorum_evidence C2envW C2stW C2stW2 C2lbW none (by decide)⟩

/-- C8 counterexample: the `part_006` `receiveBlock` has no duplicate-index
check, so re-receiving the already-persisted block 1 sets `mining_stop`,
clears `isMining`, and even re-saves the block and rewinds `height_latest`
from 2 to 1 — the claim's "ignore, no mutation, mining not stopped" fails on
this cited variant. -/
theorem C8_p6_duplicate_not_ignored_counterexample :
    (P6.receiveBlock "CP" (fun _ => "t1x") C8stW C8msgW).miningStop = true ∧
    (P6.receiveBlock "CP" (fun _ => "t1x") C8stW C8msgW).isMining = false ∧
    (P6.receiveBlock "CP" (fun _ => "t1x") C8stW C8msgW).height = some 1 ∧
    C8stW.miningStop = false ∧ C8stW.isMining = true ∧ C8stW.height = some 2 := by
  decide

/-- C8 (amended): in `src/BFT/hos/bft.go` and `src/cp/pow.go` the claim holds
as stated — a broadcast block whose index is already persisted is dropped by
the initial duplicate check, before `mining_stop` is set and before any store
access, leaving the entire node state (store, height, flags, difficulty)
unchanged; the `part_006` variant has no duplicate check and violates the
claim (see the counterexample). -/
theorem C8_duplicate_dropped_before_mining_stop (hosID cpID : String)
    (st1 : BH.NodeState) (m1 : BH.ReceiveMsg) (st2 : Cp.NodeState) (m2 : Cp.ReceiveMsg)
    (h1 : (BH.getBlockByIndex st1 m1.header.index).isSome)
    (h2 : (Cp.getBlockByIndex st2 m2.header.index).isSome) :
    BH.receiveBlock hosID st1 m1 = st1 ∧ Cp.receiveBlock cpID st2 m2 = st2 := by
  constructor
  · unfold BH.receiveBlock
    rw [if_pos h1]
  · unfold Cp.receiveBlock
    rw [if_pos h2]

/-- C8 witness: concrete duplicates are dropped with the state unchanged in
both conforming variants. -/
theorem C8_duplicate_dropped_before_mining_stop_witness :
    (BH.getBlockByIndex C8bhState C8bhMsg.header.index).isSome = true ∧
    (Cp.getBlockByIndex C8stW C8cpMsg.header.index).isSome = true ∧
    (BH.receiveBlock "H" C8bhState C8bhMsg = C8bhState ∧
      Cp.receiveBlock "CP" C8stW C8cpMsg = C8stW) :=
  ⟨by decide, by decide,
    C8_duplicate_dropped_before_mining_stop "H" "CP" C8bhState C8bhMsg C8stW C8cpMsg
      (by decide) (by decide)⟩

